import Mathlib

/-!
Verification of the secret-candidate detection and verification pipeline
(trufflehog detectors: bitcoinwif, ethereumprivatekey, cozetoken, baidu2).

The Go sources are shallowly embedded: strings are `String`/`List Char`,
Go's `big.Int` values (always non-negative here) are `Nat`, the compiled
RE2 patterns are embedded as explicit word-boundary scanners specialised
to each pattern, and the single outbound HTTP call a verifier may perform
is modelled by passing the observable outcome of that call as a value and
recording the number of round trips the verifier performs.
-/

/-- Word character of the RE2 `\b` assertion: `[0-9A-Za-z_]`. -/
def isWordChar (c : Char) : Bool := c.isAlphanum || c = '_'

/-- RE2 `\s` class: `[\t\n\f\r ]`. -/
def isSpaceRE2 (c : Char) : Bool :=
  c = ' ' || c = '\t' || c = '\n' || c = Char.ofNat 12 || c = '\r'

/-- ASCII whitespace trimmed by Go's `strings.TrimSpace` (the Unicode cases
cannot occur in any string produced by the patterns modelled here). -/
def isTrimmedSpace (c : Char) : Bool :=
  c = ' ' || c = '\t' || c = '\n' || c = Char.ofNat 11 || c = Char.ofNat 12 || c = '\r'

/-- Go `strings.TrimSpace` on the character list of a string. -/
def trimSpaceList (cs : List Char) : List Char :=
  ((cs.dropWhile isTrimmedSpace).reverse.dropWhile isTrimmedSpace).reverse

/-- Go `strings.TrimSpace`. -/
def trimSpace (s : String) : String := ⟨trimSpaceList s.data⟩

/-- Truth of a `\b` assertion whose other side is a word character, given the
character on this side (`none` = start/end of text, which is non-word). -/
def noWordAt (c : Option Char) : Bool :=
  match c with
  | none => true
  | some c => !isWordChar c

/-- One step of Go's `FindAllStringSubmatch`: a pattern-specific attempt
function receives the previous character (for leading `\b`) and the suffix
at the current position, and returns the capture of group 1, the last
character consumed by the whole match, and the suffix after the match.
The scanner tries every position left to right and resumes after each
match (matches are non-overlapping and all patterns here match at least
one character, so `fuel = length + 1` never runs out). -/
def scanAux (f : Option Char → List Char → Option (List Char × Option Char × List Char)) :
    Nat → Option Char → List Char → List (List Char)
  | 0, _, _ => []
  | _ + 1, _, [] => []
  | fuel + 1, prev, c :: rest =>
    match f prev (c :: rest) with
    | some (cap, last, rest2) => cap :: scanAux f fuel last rest2
    | none => scanAux f fuel (some c) rest

/-- All group-1 captures of a pattern over a string, leftmost first. -/
def findAllCaptures
    (f : Option Char → List Char → Option (List Char × Option Char × List Char))
    (s : String) : List String :=
  (scanAux f (s.data.length + 1) none s.data).map String.mk

/-- Externally visible unit produced by a detector, mirroring
`detectors.Result` (only the fields this pipeline writes). -/
structure Result where
  detectorType : String
  raw : String
  rawV2 : String := ""
  redacted : String := ""
  verified : Bool := false
  extraData : List (String × String) := []
  verificationError : Option String := none
  analysisInfo : List (String × String) := []
deriving Repr, DecidableEq

/-- Outcome of a verifier, together with the number of externally
observable network round trips the verifier performed to produce it. -/
structure Verification where
  verified : Bool
  extraData : List (String × String)
  err : Option String
  networkCalls : Nat
deriving Repr, DecidableEq

/-- Redacted display form: fixed-width head, literal ellipsis, fixed-width
tail (`raw[:p] + "..." + raw[len(raw)-s:]`). -/
def redact (p s : Nat) (raw : String) : String :=
  ⟨raw.data.take p⟩ ++ "..." ++ ⟨raw.data.drop (raw.data.length - s)⟩

/-! ## Bitcoin WIF detector (`bitcoinwif.go`) -/

/-- Base58 alphabet `[1-9A-HJ-NP-Za-km-z]`: alphanumeric ASCII without
`0`, `O`, `I`, `l`. -/
def isBase58Char (c : Char) : Bool :=
  c.isAlphanum && c != '0' && c != 'O' && c != 'I' && c != 'l'

/-- Match attempt for `mainnetWIFPat`, i.e.
`\b([5][1-9A-HJ-NP-Za-km-z]{50}|[LK][1-9A-HJ-NP-Za-km-z]{51})\b`,
at the current position. The two alternatives start with disjoint literal
characters (`5` versus `K`/`L`), so at most one of them can apply and the
order in which they are tried is immaterial. -/
def matchWIFAt (prev : Option Char) (cs : List Char) :
    Option (List Char × Option Char × List Char) :=
  let m51 := cs.take 51
  let m52 := cs.take 52
  if noWordAt prev = true ∧ m51.length = 51 ∧ m51.head? = some '5' ∧
      m51.all isBase58Char = true ∧ noWordAt (cs.drop 51).head? = true then
    some (m51, m51.getLast?, cs.drop 51)
  else if noWordAt prev = true ∧ m52.length = 52 ∧
      (m52.head? = some 'K' ∨ m52.head? = some 'L') ∧
      m52.all isBase58Char = true ∧ noWordAt (cs.drop 52).head? = true then
    some (m52, m52.getLast?, cs.drop 52)
  else none

/-- `mainnetWIFPat.FindAllStringSubmatch(data, -1)`, group 1. -/
def wifFindAll (s : String) : List String := findAllCaptures matchWIFAt s

/-- `isValidWIF` from `bitcoinwif.go`. -/
def isValidWIF (wif : String) : Bool :=
  if wif.data.length = 51 ∧ wif.data.head? = some '5' then true
  else if wif.data.length = 52 ∧ (wif.data.head? = some 'K' ∨ wif.data.head? = some 'L') then true
  else false

/-- `verifyBitcoinWIF` from `bitcoinwif.go`: it derives the format/network
diagnostics from the shape of the WIF and returns `true` with a nil error
without issuing any network request (the function never touches the
injected client). -/
def verifyBitcoinWIF (wif : String) : Verification :=
  { verified := true
    extraData :=
      if wif.data.length = 51 ∧ wif.data.head? = some '5' then
        [("format", "uncompressed"), ("network", "mainnet")]
      else if wif.data.length = 52 ∧ (wif.data.head? = some 'K' ∨ wif.data.head? = some 'L') then
        [("format", "compressed"), ("network", "mainnet")]
      else []
    err := none
    networkCalls := 0 }

/-- Result construction inside the WIF `FromData` loop. -/
def mkWIFResult (verify : Bool) (wif : String) : Result :=
  { detectorType := "BitcoinWIF"
    raw := wif
    redacted := redact 8 4 wif
    verified := if verify then (verifyBitcoinWIF wif).verified else false
    extraData := if verify then (verifyBitcoinWIF wif).extraData else []
    verificationError := if verify then (verifyBitcoinWIF wif).err else none }

/-- `Scanner.FromData` of the bitcoinwif detector: every regex match is
trimmed, filtered through `isValidWIF`, and turned into one result. -/
def bitcoinwifFromData (verify : Bool) (data : String) : List Result :=
  (((wifFindAll data).map trimSpace).filter isValidWIF).map (mkWIFResult verify)

def sampleWIF : String := ⟨'5' :: List.replicate 50 'A'⟩

/-! ## Ethereum private key detector (`ethereumprivatekey.go`) -/

/-- Lower-case hexadecimal digits (`0`-`9` then `a`-`f`): the characters a
64-hex-digit candidate consists of after normalization. -/
def lowerHexChars : List Char :=
  (List.range 10).map (fun i => Char.ofNat (48 + i)) ++
  (List.range 6).map (fun i => Char.ofNat (97 + i))

/-- Characters accepted by Go's `hex.DecodeString`: the lower-case digits
together with `A`-`F`. -/
def hexDigitChars : List Char := lowerHexChars ++
  (List.range 6).map (fun i => Char.ofNat (65 + i))

/-- Class `[a-f0-9]` under `(?i)`: any hexadecimal digit. -/
def isHexCIChar (c : Char) : Bool := decide (c ∈ hexDigitChars)

/-- Numeric value of one hexadecimal digit. -/
def hexDigitVal (c : Char) : Nat :=
  if c.isDigit then c.toNat - 48
  else if decide ('a' ≤ c) && decide (c ≤ 'f') then c.toNat - 87
  else if decide ('A' ≤ c) && decide (c ≤ 'F') then c.toNat - 55
  else 0

/-- Value of a hexadecimal string as an unsigned big integer
(`new(big.Int).SetString(hexKey, 16)` for a valid non-negative input). -/
def hexToNat (cs : List Char) : Nat :=
  cs.foldl (fun acc c => 16 * acc + hexDigitVal c) 0

/-- The secp256k1 group order `n` (constant `secp256k1N`). -/
def secp256k1N : Nat :=
  0xFFFFFFFFFFFFFFFFFFFFFFFFFFFFFFFEBAAEDCE6AF48A03BBFD25E8CD0364141

/-- Strip one leading `0x`, mirroring `strings.TrimPrefix(·, "0x")`. -/
def strip0x (cs : List Char) : List Char :=
  match cs with
  | '0' :: 'x' :: rest => rest
  | _ => cs

/-- The normalization performed at the start of `isValidEthPrivateKey`:
`strings.TrimPrefix(strings.ToLower(hexKey), "0x")`. -/
def ethNormalize (s : String) : List Char := strip0x (s.data.map Char.toLower)

/-- Denylist of well-known sample keys (`commonTestKeys`). -/
def commonTestKeys : List String :=
  ["0123456789abcdef0123456789abcdef0123456789abcdef0123456789abcdef",
   "1111111111111111111111111111111111111111111111111111111111111111",
   "aaaaaaaaaaaaaaaaaaaaaaaaaaaaaaaaaaaaaaaaaaaaaaaaaaaaaaaaaaaaaaaa",
   "deadbeefdeadbeefdeadbeefdeadbeefdeadbeefdeadbeefdeadbeefdeadbeef"]

/-- `isSimplePattern` from `ethereumprivatekey.go`. The Go loop over
`patternLen = 1..8` slices the key into chunks of that length (only when
it divides the total length) and reports a repetition when every chunk
equals the first; a string is such a repetition exactly when it equals its
first `patternLen` characters concatenated `len/patternLen` times. -/
def isSimplePattern (hexKey : List Char) : Bool :=
  ([1, 2, 3, 4, 5, 6, 7, 8].any (fun p =>
      decide (hexKey.length % p = 0) &&
      decide (hexKey = List.flatten (List.replicate (hexKey.length / p) (hexKey.take p))) &&
      decide (p < 16)))
  || decide (String.mk (hexKey.map Char.toLower) ∈ commonTestKeys)

/-- `isValidEthPrivateKey` from `ethereumprivatekey.go`: lower-case, strip
an optional `0x`, then check length, hex validity (`hex.DecodeString`
succeeds on an even-length string of hexadecimal digits), the all-zero and
all-`f` constants, simple patterns, and the scalar range `0 < n < order`
(`keyInt.Cmp(big.NewInt(0)) <= 0` can only mean `n = 0` for a value parsed
from hexadecimal digits). -/
def isValidEthPrivateKey (hexKey : String) : Bool :=
  let k := ethNormalize hexKey
  if k.length ≠ 64 then false
  else if ¬ (∀ c ∈ k, c ∈ hexDigitChars) then false
  else if k = List.replicate 64 '0' then false
  else if k.map Char.toLower = List.replicate 64 'f' then false
  else if isSimplePattern k = true then false
  else if hexToNat k = 0 then false
  else if secp256k1N ≤ hexToNat k then false
  else true

/-- Match attempt for `ethPrivKeyWithPrefix`, i.e.
`(?i)\b(0x[a-f0-9]{64})\b`, at the current position. -/
def matchEthWithPre (prev : Option Char) (cs : List Char) :
    Option (List Char × Option Char × List Char) :=
  if noWordAt prev = false then none
  else
    match cs with
    | '0' :: x :: rest0 =>
      if x = 'x' ∨ x = 'X' then
        let hex := rest0.take 64
        let rest := rest0.drop 64
        if hex.length = 64 ∧ hex.all isHexCIChar = true ∧ noWordAt rest.head? = true then
          some ('0' :: x :: hex, hex.getLast?, rest)
        else none
      else none
    | _ => none

/-- Strip a literal (given lower-case) case-insensitively. -/
def stripCI (lit : List Char) (cs : List Char) : Option (List Char) :=
  match lit, cs with
  | [], rest => some rest
  | _ :: _, [] => none
  | l :: lit', c :: cs' => if c.toLower = l then stripCI lit' cs' else none

/-- `[_\-]?` followed by `g`, with the greedy optional preferring to
consume a separator and backtracking when `g` then fails. -/
def stripOptDashThen (g : List Char → Option (List Char)) (cs : List Char) :
    Option (List Char) :=
  match cs with
  | c :: rest =>
    if c = '_' ∨ c = '-' then
      match g rest with
      | some r => some r
      | none => g (c :: rest)
    else g (c :: rest)
  | [] => g cs

/-- One key-name alternative `a[_\-]?⟨g⟩`. -/
def keyNameAlt (a : String) (g : List Char → Option (List Char)) (cs : List Char) :
    Option (List Char) :=
  match stripCI a.data cs with
  | none => none
  | some rest => stripOptDashThen g rest

/-- Literal continuation of a key-name alternative. -/
def litCont (b : String) : List Char → Option (List Char) := fun cs => stripCI b.data cs

/-- Two-way continuation `(?:b1|b2)`, preferring the first. -/
def altCont (b1 b2 : String) : List Char → Option (List Char) := fun cs =>
  match stripCI b1.data cs with
  | some r => some r
  | none => stripCI b2.data cs

/-- The key-name alternation of `ethPrivKeyWithContext`:
`private[_\-]?key|secret[_\-]?key|eth[_\-]?(?:private|secret)|`
`wallet[_\-]?(?:key|secret)|signing[_\-]?key|account[_\-]?(?:key|secret)|`
`priv[_\-]?key`, case-insensitively, alternatives tried in order (their
leading literals make at most one succeed at a given position). -/
def matchKeyName (cs : List Char) : Option (List Char) :=
  match keyNameAlt "private" (litCont "key") cs with
  | some r => some r
  | none =>
  match keyNameAlt "secret" (litCont "key") cs with
  | some r => some r
  | none =>
  match keyNameAlt "eth" (altCont "private" "secret") cs with
  | some r => some r
  | none =>
  match keyNameAlt "wallet" (altCont "key" "secret") cs with
  | some r => some r
  | none =>
  match keyNameAlt "signing" (litCont "key") cs with
  | some r => some r
  | none =>
  match keyNameAlt "account" (altCont "key" "secret") cs with
  | some r => some r
  | none => keyNameAlt "priv" (litCont "key") cs

/-- Separator class `["'\s:=]` of `ethPrivKeyWithContext`. -/
def isSepChar (c : Char) : Bool :=
  c = '"' || c = Char.ofNat 39 || c = ':' || c = '=' || isSpaceRE2 c

/-- Match attempt for `ethPrivKeyWithContext`, i.e.
`(?i)(?:⟨key names⟩)["'\s:=]+["']?([a-f0-9]{64})["']?\b`. The greedy
`["'\s:=]+` consumes separators maximally (no shorter split can succeed:
every separator character is non-hex, and a quote freed by backtracking
would be re-consumed by `["']?` leading to the same position). After the
64-digit capture, the greedy `["']?` consumes a closing quote only when
the `\b` still holds afterwards (i.e. a word character follows the quote);
otherwise the `\b` must hold right after the hex digits, meaning no word
character may follow them. -/
def matchEthWithContext (_prev : Option Char) (cs : List Char) :
    Option (List Char × Option Char × List Char) :=
  match matchKeyName cs with
  | none => none
  | some r1 =>
    let seps := r1.takeWhile isSepChar
    let r2 := r1.dropWhile isSepChar
    if seps.length = 0 then none
    else
      let hex := r2.take 64
      let r3 := r2.drop 64
      if hex.length = 64 ∧ hex.all isHexCIChar = true then
        match r3 with
        | [] => some (hex, hex.getLast?, [])
        | c :: r4 =>
          if c = '"' ∨ c = Char.ofNat 39 then
            match r4 with
            | d :: _ =>
              if isWordChar d then some (hex, some c, r4)
              else some (hex, hex.getLast?, r3)
            | [] => some (hex, hex.getLast?, r3)
          else if isWordChar c then none
          else some (hex, hex.getLast?, r3)
      else none

/-- `ethPrivKeyWithPrefix.FindAllStringSubmatch(data, -1)`, group 1. -/
def ethWithPreFindAll (s : String) : List String := findAllCaptures matchEthWithPre s

/-- `ethPrivKeyWithContext.FindAllStringSubmatch(data, -1)`, group 1. -/
def ethContextFindAll (s : String) : List String := findAllCaptures matchEthWithContext s

/-- `strings.ToLower` (ASCII; no pattern here can capture a character with
a non-ASCII lower-case mapping). -/
def strToLower (s : String) : String := ⟨s.data.map Char.toLower⟩

/-- Insert a key into the insertion-ordered model of the `foundKeys` set
(`if !foundKeys[key] { foundKeys[key] = true }`). -/
def insertDedup (acc : List String) (k : String) : List String :=
  if k ∈ acc then acc else acc ++ [k]

/-- The `foundKeys` set accumulated over both match loops. Go iterates the
map in unspecified order; the model uses insertion order, and every
property stated about it is order-independent. -/
def dedupKeys (ks : List String) : List String := ks.foldl insertDedup []

/-- `verifyEthPrivateKey` from `ethereumprivatekey.go`: it fills in the
format diagnostics and returns `true` with a nil error without issuing any
network request (the function never touches the injected client). -/
def verifyEthPrivateKey (_key : String) : Verification :=
  { verified := true
    extraData :=
      [("format", "ethereum_hex"), ("length", "256-bit"),
       ("compatible_chains",
        "Ethereum, BSC, Polygon, Arbitrum, Optimism, Avalanche, Fantom, etc.")]
    err := none
    networkCalls := 0 }

/-- Result construction inside the Ethereum `FromData` loop. -/
def mkEthResult (verify : Bool) (key : String) : Result :=
  { detectorType := "EthereumPrivateKey"
    raw := key
    redacted := redact 10 6 key
    verified := if verify then (verifyEthPrivateKey key).verified else false
    extraData := if verify then (verifyEthPrivateKey key).extraData else []
    verificationError := if verify then (verifyEthPrivateKey key).err else none }

/-- `Scanner.FromData` of the ethereumprivatekey detector: collect the
lower-cased prefixed matches and the `0x`-normalized context matches into
the deduplicating `foundKeys` set, filter by `isValidEthPrivateKey`, and
build one result per surviving key. -/
def ethereumFromData (verify : Bool) (data : String) : List Result :=
  let withPreKeys := (ethWithPreFindAll data).map strToLower
  let contextKeys := (ethContextFindAll data).map (fun m =>
    let key := strToLower m
    if ("0x".data).isPrefixOf key.data then key else "0x" ++ key)
  let found := dedupKeys (withPreKeys ++ contextKeys)
  (found.filter isValidEthPrivateKey).map (mkEthResult verify)

def ethTestKey : String := "4c0883a69102937d6231471b5dbb6204fe512961708279f1d7b1b3b9e1a1e3d4"

/-! ## Coze token detector (`cozetoken.go`) -/

/-- Identity payload of the Coze `/v1/users/me` response (`userResponse`);
`code` is the numeric status field of the JSON body. -/
structure CozeUser where
  code : Int
  userId : String
  userName : String
  nickName : String
deriving Repr, DecidableEq

/-- Result of `json.NewDecoder(res.Body).Decode(&userResp)`. -/
inductive CozeBody where
  | decodeError (msg : String)
  | decoded (u : CozeUser)
deriving Repr, DecidableEq

/-- Observable outcome of the single `client.Do` call of the Coze
verifier: a transport-level failure, or a status code together with the
result of decoding the body as a `userResponse`. -/
inductive CozeHttp where
  | transportError (msg : String)
  | response (status : Nat) (body : CozeBody)
deriving Repr, DecidableEq

/-- Verifier outcome for a Coze token, with the decoded identity payload
(when verified) and the number of network round trips performed. -/
structure CozeVerifyResult where
  verified : Bool
  user : Option CozeUser
  err : Option String
  networkCalls : Nat
deriving Repr, DecidableEq

/-- `verifyCozeToken` from `cozetoken.go`, as a function of the outcome of
its one `client.Do` round trip: 200 with a decoded body carrying `code 0`
and a non-empty user id means verified; 200 with any other body or a
decode failure means not verified (the decode failure carrying the error);
401/403 mean not verified with a nil error; every other status produces
the `unexpected HTTP response status` error. -/
def verifyCozeToken (outcome : CozeHttp) : CozeVerifyResult :=
  match outcome with
  | .transportError msg => ⟨false, none, some msg, 1⟩
  | .response status body =>
    if status = 200 then
      match body with
      | .decodeError e => ⟨false, none, some e, 1⟩
      | .decoded u =>
        if u.code = 0 ∧ u.userId ≠ "" then ⟨true, some u, none, 1⟩
        else ⟨false, none, none, 1⟩
    else if status = 401 ∨ status = 403 then ⟨false, none, none, 1⟩
    else ⟨false, none, some ("unexpected HTTP response status " ++ toString status), 1⟩

/-- Alphanumeric class `[A-Za-z0-9]` of the Coze key pattern. -/
def isAlnumChar (c : Char) : Bool := c.isAlphanum

/-- Match attempt for the Coze `keyPat`, i.e.
`\b((?:pat|sat)_[A-Za-z0-9]{64})\b`, at the current position. -/
def matchCozeAt (prev : Option Char) (cs : List Char) :
    Option (List Char × Option Char × List Char) :=
  if noWordAt prev = false then none
  else
    let pre := cs.take 4
    if pre = "pat_".data ∨ pre = "sat_".data then
      let body := (cs.drop 4).take 64
      let rest := (cs.drop 4).drop 64
      if body.length = 64 ∧ body.all isAlnumChar = true ∧ noWordAt rest.head? = true then
        some (cs.take 68, body.getLast?, rest)
      else none
    else none

/-- Coze `keyPat.FindAllStringSubmatch(data, -1)`, group 1. -/
def cozeFindAll (s : String) : List String := findAllCaptures matchCozeAt s

/-- Result construction inside the Coze `FromData` loop (the code never
sets `Redacted`). -/
def mkCozeResult (verify : Bool) (transport : String → CozeHttp) (token : String) : Result :=
  let base : Result :=
    { detectorType := "CozeToken"
      raw := token
      extraData :=
        if ("pat_".data).isPrefixOf token.data then [("Type", "Personal Access Token")]
        else if ("sat_".data).isPrefixOf token.data then [("Type", "Service Access Token")]
        else [] }
  if verify then
    let v := verifyCozeToken (transport token)
    { base with
      verified := v.verified
      verificationError := v.err
      extraData := base.extraData ++
        (match v.user with
         | some u =>
           if v.verified then
             [("user_id", u.userId), ("user_name", u.userName), ("nick_name", u.nickName)]
           else []
         | none => [])
      analysisInfo := if v.verified ∧ v.user.isSome then [("token", token)] else [] }
  else base

/-- `Scanner.FromData` of the cozetoken detector: one result per trimmed
regex match, no validity filter and no deduplication. -/
def cozeFromData (verify : Bool) (transport : String → CozeHttp) (data : String) : List Result :=
  ((cozeFindAll data).map trimSpace).map (mkCozeResult verify transport)

def sampleCozeToken : String := ⟨'p' :: 'a' :: 't' :: '_' :: List.replicate 64 'A'⟩

/-! ## Baidu AK/SK detector (`baidu2`, `src/unnamed/part_000`) -/

/-- Observable outcome of the single `bccClient.ListZone()` round trip of
the Baidu verifier: success, or an error whose message is inspected. A
transport-level failure (connection refused, DNS, timeout) surfaces as a
`listZoneError` whose message does not contain `IamSignatureInvalid`. -/
inductive BaiduOutcome where
  | listZoneOk
  | listZoneError (msg : String)
deriving Repr, DecidableEq

/-- Verifier outcome for a Baidu AK/SK pair (`verifyBaidu` returns
`(bool, error)`; the error returned to `SetVerificationError` is nil on
every path, so `err` is always `none`). -/
structure BaiduVerifyResult where
  verified : Bool
  err : Option String
  networkCalls : Nat
deriving Repr, DecidableEq

/-- Substring test, mirroring `strings.Contains`. -/
def listContainsSub (hay pat : List Char) : Bool :=
  match hay with
  | [] => pat.isEmpty
  | c :: t => pat.isPrefixOf (c :: t) || listContainsSub t pat

/-- `verifyBaidu` from `baidu2`: an error containing `IamSignatureInvalid`
yields `(false, nil)`; any other error — including transport failures —
and the success case both yield `(true, nil)`. -/
def verifyBaidu (outcome : BaiduOutcome) : BaiduVerifyResult :=
  match outcome with
  | .listZoneError msg =>
    if listContainsSub msg.data ("IamSignatureInvalid").data then ⟨false, none, 1⟩
    else ⟨true, none, 1⟩
  | .listZoneOk => ⟨true, none, 1⟩

/-- Class `[a-z0-9]` of the Baidu patterns. -/
def isLowerAlnumChar (c : Char) : Bool := c.isLower || c.isDigit

/-- Match attempt for the Baidu `keyPat`, i.e. `\b([a-z0-9]{32})\b`. -/
def matchBaiduKeyAt (prev : Option Char) (cs : List Char) :
    Option (List Char × Option Char × List Char) :=
  if noWordAt prev = false then none
  else
    let m := cs.take 32
    let rest := cs.drop 32
    if m.length = 32 ∧ m.all isLowerAlnumChar = true ∧ noWordAt rest.head? = true then
      some (m, m.getLast?, rest)
    else none

/-- Trailing class `["';\s]` of the Baidu `idPat`. -/
def isIdTrailChar (c : Char) : Bool :=
  c = '"' || c = Char.ofNat 39 || c = ';' || isSpaceRE2 c

/-- Match attempt for the Baidu `idPat`, i.e. `\b([a-z0-9]{32})["';\s]*`:
no trailing `\b`, and the greedy tail consumes quote/semicolon/whitespace
characters beyond the capture. -/
def matchBaiduIdAt (prev : Option Char) (cs : List Char) :
    Option (List Char × Option Char × List Char) :=
  if noWordAt prev = false then none
  else
    let m := cs.take 32
    let rest0 := cs.drop 32
    if m.length = 32 ∧ m.all isLowerAlnumChar = true then
      let trail := rest0.takeWhile isIdTrailChar
      let rest := rest0.dropWhile isIdTrailChar
      some (m, (m ++ trail).getLast?, rest)
    else none

/-- Baidu `keyPat.FindAllStringSubmatch(dataStr, -1)`, group 1. -/
def baiduKeyFindAll (s : String) : List String := findAllCaptures matchBaiduKeyAt s

/-- Baidu `idPat.FindAllStringSubmatch(dataStr, -1)`, group 1. -/
def baiduIdFindAll (s : String) : List String := findAllCaptures matchBaiduIdAt s

/-- Result construction inside the Baidu nested `FromData` loops. -/
def mkBaiduResult (verify : Bool) (transport : String → String → BaiduOutcome)
    (resIdMatch resMatch : String) : Result :=
  { detectorType := "Baidu2"
    raw := resIdMatch ++ ":" ++ resMatch
    rawV2 := resMatch
    verified := if verify then (verifyBaidu (transport resIdMatch resMatch)).verified else false
    verificationError :=
      if verify then (verifyBaidu (transport resIdMatch resMatch)).err else none }

/-- `Scanner.FromData` of the baidu2 detector: the outer loop runs over
the `keyPat` (secret) matches, the inner loop over the `idPat` (id)
matches, emitting one result per pair. -/
def baiduFromData (verify : Bool) (transport : String → String → BaiduOutcome)
    (data : String) : List Result :=
  ((baiduKeyFindAll data).map (fun km =>
    (baiduIdFindAll data).map (fun im =>
      mkBaiduResult verify transport (trimSpace im) (trimSpace km)))).flatten

def baiduTokenA : String := ⟨List.replicate 32 'a'⟩
def baiduTokenB : String := ⟨List.replicate 32 'b'⟩
def baiduSampleBuf : String := baiduTokenA ++ " " ++ baiduTokenB

def cozeSampleUser : CozeUser := ⟨0, "7412345678901234567", "coze_user", "Coze User"⟩

def baiduTransportErrMsg : String := "dial tcp: lookup bcc.bj.baidubce.com: no such host"

/-- Shape delivered by the WIF pattern: base58 characters only, and one
of the two length/first-character combinations. -/
def wifShaped (m : List Char) : Prop :=
  m.all isBase58Char = true ∧
  ((m.length = 51 ∧ m.head? = some '5') ∨
   (m.length = 52 ∧ (m.head? = some 'K' ∨ m.head? = some 'L')))

def secpOrderHex : String :=
  "fffffffffffffffffffffffffffffffebaaedce6af48a03bbfd25e8cd0364141"

def secpOrderMinusOneHex : String :=
  "fffffffffffffffffffffffffffffffebaaedce6af48a03bbfd25e8cd0364140"

/-! ## Supporting lemmas -/

/-- Length of `n` copies of a list, concatenated. -/
theorem length_flatten_replicate {α : Type} (n : Nat) (l : List α) :
    (List.flatten (List.replicate n l)).length = n * l.length := by
  induction n with
  | zero => simp
  | succ m ih => simp [List.replicate_succ, ih, Nat.succ_mul]; ring

/-- Lower-case hexadecimal digits are fixed by `Char.toLower`. -/
theorem lowerHex_toLower : ∀ c ∈ lowerHexChars, Char.toLower c = c := by decide

/-- Length of the cross-product result list. -/
theorem length_flatten_map_map {α β γ : Type} (l : List α) (inner : List β) (g : α → β → γ) :
    ((l.map (fun a => inner.map (g a))).flatten).length = l.length * inner.length := by
  induction l with
  | nil => simp
  | cons a t ih => simp [ih, Nat.succ_mul]; omega

/-- `insertDedup` preserves the absence of duplicates. -/
theorem insertDedup_nodup {acc : List String} (k : String) (h : acc.Nodup) :
    (insertDedup acc k).Nodup := by
  unfold insertDedup
  split_ifs with hk
  · exact h
  · refine List.Nodup.append h (List.nodup_singleton k) ?_
    intro a ha hb
    rw [List.mem_singleton] at hb
    exact hk (hb ▸ ha)

/-- Folding `insertDedup` preserves the absence of duplicates. -/
theorem foldl_insertDedup_nodup (ks : List String) :
    ∀ acc : List String, acc.Nodup → (ks.foldl insertDedup acc).Nodup := by
  induction ks with
  | nil => intro acc h; exact h
  | cons k t ih => intro acc h; exact ih _ (insertDedup_nodup k h)

/-- The `foundKeys` set never holds a key twice. -/
theorem dedupKeys_nodup (ks : List String) : (dedupKeys ks).Nodup :=
  foldl_insertDedup_nodup ks [] List.nodup_nil

/-! ## Claims -/

/-- Claim C9 (confirmed): the WIF validity filter accepts a string iff its
length is 51 and its first character is `'5'`, or its length is 52 and its
first character is `'K'` or `'L'`; every other length/prefix combination
is rejected. -/
theorem claim_C9 (wif : String) :
    isValidWIF wif = true ↔
      ((wif.data.length = 51 ∧ wif.data.head? = some '5') ∨
       (wif.data.length = 52 ∧ (wif.data.head? = some 'K' ∨ wif.data.head? = some 'L'))) := by
  unfold isValidWIF
  split_ifs with h1 h2 <;> simp_all

/-- Claim C6 (confirmed): for the Coze verifier, HTTP 200 with a decoded
body carrying `code = 0` and a non-empty user id yields Verified with the
identity payload attached; HTTP 401 or 403 yields NotVerified with no
error; every other status yields a VerificationError, never NotVerified. -/
theorem claim_C6 (status : Nat) (body : CozeBody) (u : CozeUser) :
    (status = 200 → body = CozeBody.decoded u → u.code = 0 → u.userId ≠ "" →
      verifyCozeToken (CozeHttp.response status body) = ⟨true, some u, none, 1⟩)
    ∧ (status = 401 ∨ status = 403 →
      verifyCozeToken (CozeHttp.response status body) = ⟨false, none, none, 1⟩)
    ∧ (status ≠ 200 → status ≠ 401 → status ≠ 403 →
      (verifyCozeToken (CozeHttp.response status body)).verified = false ∧
      (verifyCozeToken (CozeHttp.response status body)).err.isSome = true) := by
  refine ⟨?_, ?_, ?_⟩
  · intro h1 h2 h3 h4
    subst h1; subst h2
    simp [verifyCozeToken, h3, h4]
  · intro h
    unfold verifyCozeToken
    rcases h with h | h <;> subst h <;> simp
  · intro h1 h2 h3
    unfold verifyCozeToken
    simp [h1, h2, h3]

/-- Witness for claim C6 at a concrete 200/code-0 response. -/
theorem claim_C6_witness :
    verifyCozeToken (CozeHttp.response 200 (CozeBody.decoded cozeSampleUser))
      = ⟨true, some cozeSampleUser, none, 1⟩ :=
  (claim_C6 200 (CozeBody.decoded cozeSampleUser) cozeSampleUser).1 rfl rfl rfl (by decide)

/-- Claim C2 counterexample: a Baidu `ListZone` failure caused by a DNS /
transport error (its message does not contain `IamSignatureInvalid`) is
reported as Verified with a nil verification error — the claim says a
transport failure must carry a VerificationError and never be Verified. -/
theorem claim_C2_counterexample :
    verifyBaidu (BaiduOutcome.listZoneError baiduTransportErrMsg) = ⟨true, none, 1⟩ := by
  decide

/-- Claim C2 (corrected): the Coze verifier maps a transport failure to a
VerificationError carrying the underlying cause (not Verified and not
NotVerified-without-error); the Baidu verifier, however, reports every
`ListZone` error that does not contain `IamSignatureInvalid` — transport
failures included — as Verified with no error, and only signature-invalid
errors as NotVerified. -/
theorem claim_C2 :
    (∀ msg, verifyCozeToken (CozeHttp.transportError msg) = ⟨false, none, some msg, 1⟩)
    ∧ (∀ msg : String, listContainsSub msg.data ("IamSignatureInvalid").data = false →
        verifyBaidu (BaiduOutcome.listZoneError msg) = ⟨true, none, 1⟩)
    ∧ (∀ msg : String, listContainsSub msg.data ("IamSignatureInvalid").data = true →
        verifyBaidu (BaiduOutcome.listZoneError msg) = ⟨false, none, 1⟩) := by
  refine ⟨fun msg => rfl, ?_, ?_⟩
  · intro msg h; unfold verifyBaidu; simp [h]
  · intro msg h; unfold verifyBaidu; simp [h]

/-- Witness for claim C2 at a concrete signature-invalid error message. -/
theorem claim_C2_witness :
    verifyBaidu (BaiduOutcome.listZoneError "Code: IamSignatureInvalid; Message: IamSignatureInvalid")
      = ⟨false, none, 1⟩ :=
  claim_C2.2.2 "Code: IamSignatureInvalid; Message: IamSignatureInvalid" (by decide)

/-- Claim C1 counterexample: processed with `verify = true`, a WIF
candidate is marked Verified although its verifier performs zero network
round trips — format validity alone yields Verified, and no HTTP 200 is
involved; the Ethereum verifier behaves the same way. -/
theorem claim_C1_counterexample :
    (bitcoinwifFromData true sampleWIF).map Result.verified = [true]
    ∧ (verifyBitcoinWIF sampleWIF).networkCalls = 0
    ∧ (verifyEthPrivateKey ("0x" ++ ethTestKey)).verified = true
    ∧ (verifyEthPrivateKey ("0x" ++ ethTestKey)).networkCalls = 0 := by
  refine ⟨by decide, rfl, rfl, rfl⟩

/-- Claim C1 (amended): the WIF and Ethereum verifiers perform zero
network round trips and mark every candidate Verified on format validity
alone; only the Coze verifier performs exactly one round trip and yields
Verified only for an HTTP 200 response whose body decodes with `code = 0`
and a non-empty user id. -/
theorem claim_C1 :
    (∀ wif, (verifyBitcoinWIF wif).verified = true ∧
      (verifyBitcoinWIF wif).networkCalls = 0 ∧ (verifyBitcoinWIF wif).err = none)
    ∧ (∀ key, (verifyEthPrivateKey key).verified = true ∧
      (verifyEthPrivateKey key).networkCalls = 0 ∧ (verifyEthPrivateKey key).err = none)
    ∧ (∀ outcome, (verifyCozeToken outcome).networkCalls = 1 ∧
        ((verifyCozeToken outcome).verified = true →
          ∃ u, outcome = CozeHttp.response 200 (CozeBody.decoded u)
            ∧ u.code = 0 ∧ u.userId ≠ "")) := by
  refine ⟨fun wif => ⟨rfl, rfl, rfl⟩, fun key => ⟨rfl, rfl, rfl⟩, ?_⟩
  intro outcome
  cases outcome with
  | transportError msg => exact ⟨rfl, by intro h; simp [verifyCozeToken] at h⟩
  | response status body =>
    unfold verifyCozeToken
    by_cases h200 : status = 200
    · subst h200
      cases body with
      | decodeError e => exact ⟨rfl, by intro h; simp at h⟩
      | decoded u =>
        by_cases hu : u.code = 0 ∧ u.userId ≠ ""
        · exact ⟨by simp [hu], fun _ => ⟨u, rfl, hu.1, hu.2⟩⟩
        · refine ⟨by simp [hu], ?_⟩
          intro h
          simp [hu] at h
    · by_cases h4 : status = 401 ∨ status = 403
      · refine ⟨by simp [h200, h4], ?_⟩
        intro h
        simp [h200, h4] at h
      · refine ⟨by simp [h200, h4], ?_⟩
        intro h
        simp [h200, h4] at h

/-- Witness for claim C1: the Verified-implies-200 part applied at a
concrete successful response. -/
theorem claim_C1_witness :
    ∃ u, CozeHttp.response 200 (CozeBody.decoded cozeSampleUser)
        = CozeHttp.response 200 (CozeBody.decoded u) ∧ u.code = 0 ∧ u.userId ≠ "" :=
  (claim_C1.2.2 (CozeHttp.response 200 (CozeBody.decoded cozeSampleUser))).2 (by decide)

/-- Claim C8 (confirmed): the Baidu `FromData` pairs every `idPat` match
with every `keyPat` (secret) match of the same buffer — a full
cross-product: with `n` secret matches and `m` id matches it emits `n * m`
results, and the result for every (id, secret) pair is present. -/
theorem claim_C8 (verify : Bool) (transport : String → String → BaiduOutcome) (data : String) :
    (baiduFromData verify transport data).length
      = (baiduKeyFindAll data).length * (baiduIdFindAll data).length
    ∧ ∀ km ∈ baiduKeyFindAll data, ∀ im ∈ baiduIdFindAll data,
        mkBaiduResult verify transport (trimSpace im) (trimSpace km)
          ∈ baiduFromData verify transport data := by
  constructor
  · exact length_flatten_map_map _ _ _
  · intro km hk im hi
    unfold baiduFromData
    exact List.mem_flatten.mpr ⟨_, List.mem_map_of_mem _ hk, List.mem_map_of_mem _ hi⟩

/-- Witness for claim C8: a concrete buffer holding two 32-character
tokens produces the cross pair (second id, first secret). -/
theorem claim_C8_witness :
    mkBaiduResult false (fun _ _ => BaiduOutcome.listZoneOk)
        (trimSpace baiduTokenB) (trimSpace baiduTokenA)
      ∈ baiduFromData false (fun _ _ => BaiduOutcome.listZoneOk) baiduSampleBuf :=
  (claim_C8 false (fun _ _ => BaiduOutcome.listZoneOk) baiduSampleBuf).2
    baiduTokenA (by decide) baiduTokenB (by decide)

/-- Claim C7 (confirmed): a bare 64-hex-digit key with no preceding
key-name token and no `0x` prefix yields no result from the Ethereum
detector; preceded by `private_key:` or `secret_key=` it yields exactly
one result whose raw value carries the canonical `0x` prefix. -/
theorem claim_C7 :
    ethereumFromData false ("some random text " ++ ethTestKey ++ " more text") = []
    ∧ (ethereumFromData false ("private_key: " ++ ethTestKey)).map Result.raw
        = ["0x" ++ ethTestKey]
    ∧ (ethereumFromData false ("secret_key=" ++ ethTestKey)).map Result.raw
        = ["0x" ++ ethTestKey] := by
  exact ⟨by decide, by decide, by decide⟩

/-- Claim C4 counterexample: the WIF detector emits two results for the
same secret occurring twice in one buffer — results are not deduplicated
in every detector family. -/
theorem claim_C4_counterexample :
    (bitcoinwifFromData false (sampleWIF ++ " " ++ sampleWIF)).map Result.raw
      = [sampleWIF, sampleWIF] := by
  decide

set_option maxRecDepth 8192 in
/-- Claim C4 (amended): the Ethereum detector deduplicates keyed on the
normalized (lower-cased, `0x`-prefixed) secret — the raw values of one
invocation are pairwise distinct, and a key occurring both with and
without its prefix yields exactly one result; the WIF detector (see the
counterexample) emits one result per match without deduplication. -/
theorem claim_C4 :
    (∀ (verify : Bool) (data : String),
      ((ethereumFromData verify data).map Result.raw).Nodup)
    ∧ (ethereumFromData false
        ("private_key: " ++ ethTestKey ++ " and 0x" ++ ethTestKey)).map Result.raw
      = ["0x" ++ ethTestKey] := by
  constructor
  · intro verify data
    have hcomp : (Result.raw ∘ mkEthResult verify) = id := funext fun k => rfl
    simp only [ethereumFromData, List.map_map, hcomp, List.map_id]
    exact (dedupKeys_nodup _).filter _
  · decide

/-- Claim C5 counterexample: the Coze detector emits results whose
redacted field is empty — it is not of the prefix + ellipsis + suffix
form (it does not even contain the ellipsis), so not every detector
attaches a redacted display form. -/
theorem claim_C5_counterexample :
    ((cozeFromData false (fun _ => CozeHttp.transportError "") ("tok " ++ sampleCozeToken)).map
        Result.redacted = [""])
    ∧ ((cozeFromData false (fun _ => CozeHttp.transportError "") ("tok " ++ sampleCozeToken)).map
        (fun r => listContainsSub r.redacted.data ("...").data) = [false]) := by
  exact ⟨by decide, by decide⟩

/-- Claim C5 (amended): the WIF and Ethereum detectors attach the
fixed-width redaction (first 8 + `...` + last 4, resp. first 10 + `...` +
last 6 characters of the secret) to every result; the Coze and Baidu
detectors leave the redacted field empty. -/
theorem claim_C5 :
    (∀ (verify : Bool) (data : String), ∀ r ∈ bitcoinwifFromData verify data,
        r.redacted = redact 8 4 r.raw)
    ∧ (∀ (verify : Bool) (data : String), ∀ r ∈ ethereumFromData verify data,
        r.redacted = redact 10 6 r.raw)
    ∧ (∀ (verify : Bool) (transport : String → CozeHttp) (data : String),
        ∀ r ∈ cozeFromData verify transport data, r.redacted = "")
    ∧ (∀ (verify : Bool) (transport : String → String → BaiduOutcome) (data : String),
        ∀ r ∈ baiduFromData verify transport data, r.redacted = "") := by
  refine ⟨?_, ?_, ?_, ?_⟩
  · intro verify data r hr
    unfold bitcoinwifFromData at hr
    obtain ⟨w, _, rfl⟩ := List.mem_map.mp hr
    rfl
  · intro verify data r hr
    simp only [ethereumFromData] at hr
    obtain ⟨k, _, rfl⟩ := List.mem_map.mp hr
    rfl
  · intro verify transport data r hr
    unfold cozeFromData at hr
    obtain ⟨t, _, rfl⟩ := List.mem_map.mp hr
    cases verify <;> rfl
  · intro verify transport data r hr
    unfold baiduFromData at hr
    obtain ⟨inner, hin, hr2⟩ := List.mem_flatten.mp hr
    obtain ⟨km, _, rfl⟩ := List.mem_map.mp hin
    obtain ⟨im, _, rfl⟩ := List.mem_map.mp hr2
    rfl

/-- Witness for claim C5: the concrete WIF result of a one-secret buffer
carries the 8/4 redaction of its raw value. -/
theorem claim_C5_witness :
    (mkWIFResult false sampleWIF).redacted = redact 8 4 (mkWIFResult false sampleWIF).raw :=
  claim_C5.1 false sampleWIF (mkWIFResult false sampleWIF) (by decide)

/-- Every successful WIF match attempt returns a shaped capture. -/
theorem matchWIFAt_shaped {prev : Option Char} {cs m : List Char} {last : Option Char}
    {rest : List Char} (h : matchWIFAt prev cs = some (m, last, rest)) : wifShaped m := by
  unfold matchWIFAt at h
  dsimp only at h
  split_ifs at h with h1 h2
  · simp only [Option.some.injEq, Prod.mk.injEq] at h
    obtain ⟨rfl, -, -⟩ := h
    exact ⟨h1.2.2.2.1, Or.inl ⟨h1.2.1, h1.2.2.1⟩⟩
  · simp only [Option.some.injEq, Prod.mk.injEq] at h
    obtain ⟨rfl, -, -⟩ := h
    exact ⟨h2.2.2.2.1, Or.inr ⟨h2.2.1, h2.2.2.1⟩⟩

/-- Every capture emitted by the WIF scanner is shaped, whatever the fuel,
previous character and remaining input. -/
theorem scanAux_wif_shaped :
    ∀ (fuel : Nat) (prev : Option Char) (cs : List Char),
      ∀ m ∈ scanAux matchWIFAt fuel prev cs, wifShaped m := by
  intro fuel
  induction fuel with
  | zero => intro prev cs m hm; simp [scanAux] at hm
  | succ n ih =>
    intro prev cs m hm
    cases cs with
    | nil => simp [scanAux] at hm
    | cons c rest =>
      simp only [scanAux] at hm
      cases hmatch : matchWIFAt prev (c :: rest) with
      | none =>
        rw [hmatch] at hm
        exact ih _ _ m hm
      | some t =>
        obtain ⟨cap, last, rest2⟩ := t
        rw [hmatch] at hm
        rcases List.mem_cons.mp hm with rfl | hm2
        · exact matchWIFAt_shaped hmatch
        · exact ih _ _ m hm2

/-- Every string returned by `wifFindAll` is shaped. -/
theorem wifFindAll_shaped (data : String) : ∀ s ∈ wifFindAll data, wifShaped s.data := by
  intro s hs
  obtain ⟨m, hm, rfl⟩ := List.mem_map.mp hs
  exact scanAux_wif_shaped _ _ _ m hm

/-- Base58 characters are not trimmable whitespace. -/
theorem base58_not_space {c : Char} (h : isBase58Char c = true) : isTrimmedSpace c = false := by
  by_contra hs
  rw [Bool.not_eq_false] at hs
  unfold isTrimmedSpace at hs
  simp only [Bool.or_eq_true, decide_eq_true_eq] at hs
  rcases hs with ((((h1 | h1) | h1) | h1) | h1) | h1 <;> subst h1 <;> exact absurd h (by decide)

/-- A list whose head fails the predicate is fixed by `dropWhile`. -/
theorem dropWhile_eq_self_of_head {p : Char → Bool} {l : List Char}
    (h : ∀ a, l.head? = some a → p a = false) : l.dropWhile p = l := by
  cases l with
  | nil => rfl
  | cons a t => simp [List.dropWhile_cons, h a rfl]

/-- `strings.TrimSpace` leaves a shaped WIF capture unchanged: its first
character is a literal from the pattern and its last character is base58,
neither of which is whitespace. -/
theorem trimSpace_shaped {m : List Char} (h : wifShaped m) : trimSpace ⟨m⟩ = ⟨m⟩ := by
  have hall : ∀ c ∈ m, isBase58Char c = true := List.all_eq_true.mp h.1
  have h1 : m.dropWhile isTrimmedSpace = m := by
    apply dropWhile_eq_self_of_head
    intro a ha
    rcases h.2 with ⟨-, hh⟩ | ⟨-, hh | hh⟩ <;> rw [ha] at hh <;>
      cases Option.some.inj hh <;> decide
  have h2 : m.reverse.dropWhile isTrimmedSpace = m.reverse := by
    apply dropWhile_eq_self_of_head
    intro a ha
    rw [List.head?_reverse] at ha
    exact base58_not_space (hall a (List.mem_of_getLast?_eq_some ha))
  show String.mk (trimSpaceList m) = String.mk m
  unfold trimSpaceList
  rw [h1, h2, List.reverse_reverse]

/-- A shaped capture passes `isValidWIF`. -/
theorem wifShaped_valid {m : List Char} (h : wifShaped m) : isValidWIF ⟨m⟩ = true := by
  unfold isValidWIF
  rcases h.2 with ⟨h1, h2⟩ | ⟨h1, h2⟩
  · rw [if_pos ⟨h1, h2⟩]
  · rw [if_neg, if_pos ⟨h1, h2⟩]
    intro hc
    rw [h1] at hc
    exact absurd hc.1 (by decide)

/-- Claim C10 (confirmed): every substring captured by the WIF pattern
already satisfies `isValidWIF` after trimming, so the filter branch of the
WIF `FromData` is unreachable: no extracted candidate is ever dropped and
the result count equals the match count. -/
theorem claim_C10 (data : String) :
    (∀ m ∈ wifFindAll data, isValidWIF (trimSpace m) = true)
    ∧ (bitcoinwifFromData false data).length = (wifFindAll data).length := by
  have hvalid : ∀ m ∈ wifFindAll data, isValidWIF (trimSpace m) = true := by
    intro m hm
    have hsh := wifFindAll_shaped data m hm
    rw [show trimSpace m = m from trimSpace_shaped hsh]
    exact wifShaped_valid hsh
  refine ⟨hvalid, ?_⟩
  unfold bitcoinwifFromData
  rw [List.filter_eq_self.mpr, List.length_map, List.length_map]
  intro a ha
  obtain ⟨m, hm, rfl⟩ := List.mem_map.mp ha
  exact hvalid m hm

/-- Witness for claim C10 at a concrete one-match buffer. -/
theorem claim_C10_witness : isValidWIF (trimSpace sampleWIF) = true :=
  (claim_C10 sampleWIF).1 sampleWIF (by decide)

/-- On a 64-character key, `isSimplePattern` is false exactly when the key
is not a short period (length 1..8) repeated and is not denylisted. The
period lengths 3, 5, 6 and 7 do not divide 64, so for them inequality with
the truncated repetition holds for length reasons alone. -/
theorem isSimplePattern_eq_false_iff {k : List Char} (h64 : k.length = 64) :
    isSimplePattern k = false ↔
      ((∀ p ∈ [1, 2, 3, 4, 5, 6, 7, 8],
          k ≠ List.flatten (List.replicate (64 / p) (k.take p)))
       ∧ String.mk (k.map Char.toLower) ∉ commonTestKeys) := by
  have hne : ∀ p : Nat, 0 < p → p < 64 → 64 % p ≠ 0 →
      k ≠ List.flatten (List.replicate (64 / p) (k.take p)) := by
    intro p hp hlt hnd he
    have hl := congrArg List.length he
    rw [length_flatten_replicate, List.length_take, h64,
      Nat.min_eq_left (Nat.le_of_lt hlt)] at hl
    have hdm := Nat.div_add_mod 64 p
    rw [Nat.mul_comm, ← hl] at hdm
    omega
  have hchar : isSimplePattern k = true ↔
      ((∃ p ∈ [1, 2, 3, 4, 5, 6, 7, 8], 64 % p = 0 ∧
          k = List.flatten (List.replicate (64 / p) (k.take p)) ∧ p < 16)
       ∨ String.mk (k.map Char.toLower) ∈ commonTestKeys) := by
    unfold isSimplePattern
    rw [h64]
    simp [List.any_eq_true, Bool.and_eq_true, decide_eq_true_eq, and_assoc]
  rw [show (isSimplePattern k = false) = ¬ (isSimplePattern k = true) from by
    cases isSimplePattern k <;> simp]
  rw [hchar]
  constructor
  · intro hnot
    push_neg at hnot
    obtain ⟨hA, hB⟩ := hnot
    refine ⟨?_, hB⟩
    intro p hp
    fin_cases hp
    · simpa using hA 1 (by simp)
    · simpa using hA 2 (by simp)
    · exact hne 3 (by norm_num) (by norm_num) (by norm_num)
    · simpa using hA 4 (by simp)
    · exact hne 5 (by norm_num) (by norm_num) (by norm_num)
    · exact hne 6 (by norm_num) (by norm_num) (by norm_num)
    · exact hne 7 (by norm_num) (by norm_num) (by norm_num)
    · simpa using hA 8 (by simp)
  · rintro ⟨hA, hB⟩ (⟨p, hp, -, heq, -⟩ | hden)
    · exact hA p hp heq
    · exact hB hden

set_option maxRecDepth 16384 in
/-- Claim C3 (confirmed): for every candidate that normalizes (optional
`0x` stripped, lower-cased) to a 64-hex-digit string, the Ethereum
validity filter accepts it iff its value `N` satisfies
`0 < N < secp256k1N`, it is not the all-zero or all-`f` constant, it is
not a period of length 1..8 repeated, and it is not denylisted; in
particular the order-minus-one value is accepted and the order itself is
rejected. -/
theorem claim_C3 :
    (∀ s : String, (ethNormalize s).length = 64 →
      (∀ c ∈ ethNormalize s, c ∈ lowerHexChars) →
      (isValidEthPrivateKey s = true ↔
        (0 < hexToNat (ethNormalize s) ∧
         hexToNat (ethNormalize s) < secp256k1N ∧
         ethNormalize s ≠ List.replicate 64 '0' ∧
         ethNormalize s ≠ List.replicate 64 'f' ∧
         (∀ p ∈ [1, 2, 3, 4, 5, 6, 7, 8],
           ethNormalize s ≠ List.flatten (List.replicate (64 / p) ((ethNormalize s).take p))) ∧
         String.mk (ethNormalize s) ∉ commonTestKeys)))
    ∧ isValidEthPrivateKey secpOrderMinusOneHex = true
    ∧ isValidEthPrivateKey secpOrderHex = false := by
  refine ⟨?_, by decide, by decide⟩
  intro s h64 hlow
  set k := ethNormalize s with hkdef
  have hhex : ∀ c ∈ k, c ∈ hexDigitChars := fun c hc => List.mem_append_left _ (hlow c hc)
  have hfix : k.map Char.toLower = k := by
    have h1 : ∀ c ∈ k, Char.toLower c = c := fun c hc => lowerHex_toLower c (hlow c hc)
    rw [List.map_congr_left h1, List.map_id']
  have hsimple := isSimplePattern_eq_false_iff (k := k) h64
  rw [hfix] at hsimple
  simp only [isValidEthPrivateKey]
  rw [← hkdef, if_neg (show ¬ (k.length ≠ 64) from by simp [h64]),
    if_neg (not_not_intro hhex), hfix]
  constructor
  · intro hv
    by_cases h1 : k = List.replicate 64 '0'
    · rw [if_pos h1] at hv; exact absurd hv Bool.false_ne_true
    rw [if_neg h1] at hv
    by_cases h2 : k = List.replicate 64 'f'
    · rw [if_pos h2] at hv; exact absurd hv Bool.false_ne_true
    rw [if_neg h2] at hv
    by_cases h3 : isSimplePattern k = true
    · rw [if_pos h3] at hv; exact absurd hv Bool.false_ne_true
    rw [if_neg h3] at hv
    by_cases h4 : hexToNat k = 0
    · rw [if_pos h4] at hv; exact absurd hv Bool.false_ne_true
    rw [if_neg h4] at hv
    by_cases h5 : secp256k1N ≤ hexToNat k
    · rw [if_pos h5] at hv; exact absurd hv Bool.false_ne_true
    have hf : isSimplePattern k = false := by
      cases hsp : isSimplePattern k
      · rfl
      · exact absurd hsp h3
    exact ⟨Nat.pos_of_ne_zero h4, Nat.not_le.mp h5, h1, h2,
      (hsimple.mp hf).1, (hsimple.mp hf).2⟩
  · rintro ⟨hpos, hlt, h0, hf, hper, hden⟩
    have hs : isSimplePattern k = false := hsimple.mpr ⟨hper, hden⟩
    rw [if_neg h0, if_neg hf, if_neg (by simp [hs]), if_neg (by omega), if_neg (by omega)]

/-- Witness for claim C3: the filter applied at the concrete random-shaped
test key, its hypotheses and the right-hand side discharged by evaluation. -/
theorem claim_C3_witness : isValidEthPrivateKey ethTestKey = true :=
  (claim_C3.1 ethTestKey (by decide) (by decide)).mpr (by decide)
